import Mathlib

/-!
Shallow embedding of the per-guild configuration, premium entitlement,
license-key redemption, ticket claim/unclaim and rating subsystems of the
Nozzari ticket bot, together with theorems checking the specification's
claims against this embedding.

Conventions used throughout:

* JSON object stores (`GUILD_CONFIGS`, `PREMIUM_GUILDS`, `PREMIUM_KEYS`,
  `REVIEWS`, `RATED`) are modelled as functions `String → Option α`;
  a `none` lookup is JavaScript's `undefined`.
* Timestamps are integers (milliseconds since the epoch).  ISO-8601
  serialisation (`new Date(ms).toISOString()` followed by `Date.parse`)
  round-trips on machine-produced values, so stored timestamp strings are
  modelled by the integer they parse to.  A stored `expiresAt` is
  `Option (Option Int)`: `none` for an absent/falsy value, `some none`
  for a present string on which `Date.parse` is not finite, and
  `some (some t)` for a string parsing to time `t`.
* Channel topics and names flow through character-level splitting, so they
  are modelled as `List Char`, which mirrors JavaScript string semantics
  exactly.
-/

namespace Nozzari

/-- A JSON-object store keyed by strings; `obj[key]` is `store key`. -/
def Store (α : Type) : Type := String → Option α

/-- Assignment `obj[key] = v`. -/
def Store.update (st : Store α) (k : String) (v : α) : Store α :=
  fun k' => if k' = k then some v else st k'

/-- Characters of a JavaScript string. -/
abbrev Str := List Char

/-- Template interpolation of a possibly-null id: JavaScript inserts the text
`null` for the value `null` (and `makeTopic` additionally uses
`claimerId ?? "null"`). -/
def interpNull : Option Str → Str
  | some s => s
  | none => "null".toList

/-- `makeTopic(openerId, claimerId)` from the source:
the template string `opened:${openerId};claimed:${claimerId ?? "null"}`. -/
def makeTopic (openerId claimerId : Option Str) : Str :=
  "opened:".toList ++ interpNull openerId ++ ";claimed:".toList ++ interpNull claimerId

/-- The record returned by `parseTopic`. -/
structure TopicInfo where
  opened : Option Str
  claimed : Option Str
deriving DecidableEq

/-- JavaScript `String.prototype.split` with a one-character separator
(`"".split(sep)` is `[""]`, separators at the ends produce empty pieces). -/
def splitChar (sep : Char) : Str → List Str
  | [] => [[]]
  | c :: rest =>
    let r := splitChar sep rest
    if c = sep then [] :: r
    else
      match r with
      | [] => [[c]]
      | h :: t => (c :: h) :: t

/-- The source's `v || null` on the `opened` value (empty string and
`undefined` are falsy). -/
def jsTopicVal (v : Option Str) : Option Str :=
  match v with
  | some s => if s = [] then none else some s
  | none => none

/-- The source's `v && v !== "null" ? v : null` on the `claimed` value. -/
def jsClaimVal (v : Option Str) : Option Str :=
  match v with
  | some s => if s = [] ∨ s = "null".toList then none else some s
  | none => none

/-- One step of `parseTopic`'s loop over `topic.split(";")`: the destructuring
`[k, v] = p.split(":")` followed by the two independent `if`s. -/
def parseTopicPart (acc : TopicInfo) (p : Str) : TopicInfo :=
  let kv := splitChar ':' p
  let k := kv.headD []
  let v := kv[1]?
  let acc1 := if k = "opened".toList then { acc with opened := jsTopicVal v } else acc
  if k = "claimed".toList then { acc1 with claimed := jsClaimVal v } else acc1

/-- `parseTopic(topic)` from the source (`!topic` covers both a null topic and
the empty string). -/
def parseTopic (topic : Option Str) : TopicInfo :=
  match topic with
  | none => ⟨none, none⟩
  | some t =>
    if t = [] then ⟨none, none⟩
    else (splitChar ';' t).foldl parseTopicPart ⟨none, none⟩

lemma splitChar_sepFree {sep : Char} {l : Str} (h : sep ∉ l) : splitChar sep l = [l] := by
  induction l with
  | nil => rfl
  | cons c rest ih =>
    have hc : c ≠ sep := fun hcs => h (hcs ▸ List.mem_cons_self c rest)
    have hr : sep ∉ rest := fun hm => h (List.mem_cons_of_mem _ hm)
    simp [splitChar, ih hr, hc]

lemma splitChar_cons (sep c : Char) (rest : Str) :
    splitChar sep (c :: rest) =
      if c = sep then [] :: splitChar sep rest
      else
        match splitChar sep rest with
        | [] => [[c]]
        | h :: t => (c :: h) :: t := rfl

lemma splitChar_append {sep : Char} {l1 : Str} (l2 : Str) (h : sep ∉ l1) :
    splitChar sep (l1 ++ sep :: l2) = l1 :: splitChar sep l2 := by
  induction l1 with
  | nil => simp [splitChar]
  | cons c rest ih =>
    have hc : c ≠ sep := fun hcs => h (hcs ▸ List.mem_cons_self c rest)
    have hr : sep ∉ rest := fun hm => h (List.mem_cons_of_mem _ hm)
    have hne : splitChar sep (rest ++ sep :: l2) = rest :: splitChar sep l2 := ih hr
    rw [List.cons_append, splitChar_cons, if_neg hc, hne]

/-- Well-formedness of an id that appears inside a topic string: non-empty and
free of the two separator characters. -/
def idOk (s : Str) : Prop := s ≠ [] ∧ ';' ∉ s ∧ ':' ∉ s

instance (s : Str) : Decidable (idOk s) := by
  unfold idOk
  infer_instance

lemma parseTopicPart_opened (acc : TopicInfo) (v : Str) (hv : ':' ∉ v) :
    parseTopicPart acc ("opened:".toList ++ v) =
      { acc with opened := jsTopicVal (some v) } := by
  have h1 : ("opened:".toList ++ v : Str) = "opened".toList ++ ':' :: v := by
    have : ("opened:".toList : Str) = "opened".toList ++ [':'] := by decide
    simp [this]
  have h2 : splitChar ':' ("opened".toList ++ ':' :: v) =
      "opened".toList :: splitChar ':' v := by
    apply splitChar_append
    decide
  rw [parseTopicPart, h1, h2, splitChar_sepFree hv]
  simp

lemma parseTopicPart_claimed (acc : TopicInfo) (v : Str) (hv : ':' ∉ v) :
    parseTopicPart acc ("claimed:".toList ++ v) =
      { acc with claimed := jsClaimVal (some v) } := by
  have h1 : ("claimed:".toList ++ v : Str) = "claimed".toList ++ ':' :: v := by
    have : ("claimed:".toList : Str) = "claimed".toList ++ [':'] := by decide
    simp [this]
  have h2 : splitChar ':' ("claimed".toList ++ ':' :: v) =
      "claimed".toList :: splitChar ':' v := by
    apply splitChar_append
    decide
  rw [parseTopicPart, h1, h2, splitChar_sepFree hv]
  simp

/-- Parsing a freshly generated topic recovers the opener verbatim and the
claimer through the `null`-sentinel decoding. -/
lemma parseTopic_make (opener : Str) (claimer : Option Str)
    (ho : idOk opener) (hc : idOk (interpNull claimer)) :
    parseTopic (some (makeTopic (some opener) claimer)) =
      ⟨some opener, jsClaimVal (some (interpNull claimer))⟩ := by
  obtain ⟨hone, hosemi, hocolon⟩ := ho
  obtain ⟨hcne, hcsemi, hccolon⟩ := hc
  set ic := interpNull claimer with hic
  have hshape : makeTopic (some opener) claimer =
      ("opened:".toList ++ opener) ++ ';' :: ("claimed:".toList ++ ic) := by
    have : (";claimed:".toList : Str) = ';' :: "claimed:".toList := by decide
    simp [makeTopic, interpNull, this, hic]
  have hnosemi1 : ';' ∉ ("opened:".toList ++ opener : Str) := by
    intro hm
    rcases List.mem_append.mp hm with h | h
    · revert h; decide
    · exact hosemi h
  have hsplit : splitChar ';' (makeTopic (some opener) claimer) =
      ("opened:".toList ++ opener) :: [("claimed:".toList ++ ic)] := by
    rw [hshape, splitChar_append _ hnosemi1, splitChar_sepFree]
    intro hm
    rcases List.mem_append.mp hm with h | h
    · revert h; decide
    · exact hcsemi h
  have hne : makeTopic (some opener) claimer ≠ [] := by
    rw [hshape]
    simp
  rw [parseTopic, if_neg hne, hsplit]
  simp only [List.foldl_cons, List.foldl_nil]
  rw [parseTopicPart_opened _ _ hocolon, parseTopicPart_claimed _ _ hccolon]
  have hov : jsTopicVal (some opener) = some opener := by
    simp [jsTopicVal, hone]
  simp [hov]

/-- C10: topic encoding round-trips.  A snowflake id is a non-empty string of
decimal digits (hence contains neither `:` nor `;` and is not the literal
string `null`): for such `opener` and `claimer`,
`parseTopic(makeTopic(opener, claimer))` returns
`{opened: opener, claimed: claimer}`, and
`parseTopic(makeTopic(opener, null))` returns `{opened: opener, claimed: null}`. -/
theorem topic_encoding_roundtrip (opener claimer : Str)
    (ho : opener ≠ [] ∧ ∀ c ∈ opener, c.isDigit)
    (hc : claimer ≠ [] ∧ ∀ c ∈ claimer, c.isDigit) :
    parseTopic (some (makeTopic (some opener) (some claimer))) = ⟨some opener, some claimer⟩
    ∧ parseTopic (some (makeTopic (some opener) none)) = ⟨some opener, none⟩ := by
  have digitsOk : ∀ s : Str, s ≠ [] → (∀ c ∈ s, c.isDigit) → idOk s := by
    intro s hne hdig
    refine ⟨hne, ?_, ?_⟩
    · intro hm
      have := hdig _ hm
      revert this; decide
    · intro hm
      have := hdig _ hm
      revert this; decide
  have hoOk := digitsOk _ ho.1 ho.2
  have hcOk := digitsOk _ hc.1 hc.2
  have hcnotnull : claimer ≠ ['n', 'u', 'l', 'l'] := by
    intro h
    have : ('n' : Char) ∈ claimer := by
      rw [h]; decide
    have := hc.2 _ this
    revert this; decide
  constructor
  · rw [parseTopic_make opener (some claimer) hoOk hcOk]
    simp [interpNull, jsClaimVal, hc.1, hcnotnull]
  · rw [parseTopic_make opener none hoOk (by constructor <;> decide)]
    simp [interpNull, jsClaimVal]

theorem topic_encoding_roundtrip_witness :
    ((("123456789012345678".toList : Str) ≠ [] ∧
        ∀ c ∈ ("123456789012345678".toList : Str), c.isDigit)
      ∧ (("987654321098765432".toList : Str) ≠ [] ∧
        ∀ c ∈ ("987654321098765432".toList : Str), c.isDigit))
    ∧ (parseTopic (some (makeTopic (some "123456789012345678".toList)
          (some "987654321098765432".toList))) =
        ⟨some "123456789012345678".toList, some "987654321098765432".toList⟩
      ∧ parseTopic (some (makeTopic (some "123456789012345678".toList) none)) =
        ⟨some "123456789012345678".toList, none⟩) :=
  ⟨⟨by decide, by decide⟩,
    topic_encoding_roundtrip _ _ (by decide) (by decide)⟩

/-! ## Ticket claim / unclaim handlers -/

/-- The observable state of a ticket channel: its topic and its name. -/
structure ChannelState where
  topic : Option Str
  name : Str
deriving DecidableEq

/-- The premium facts the claim/unclaim handlers consult, i.e. the result of
`getPremiumState(guildId)` restricted to the fields they read. -/
structure PremiumFlags where
  isPremium : Bool
  autoTagClaims : Bool
deriving DecidableEq

inductive ClaimResult where
  | notAllowed
  | alreadyClaimed
  | claimedOk
deriving DecidableEq

inductive UnclaimResult where
  | notAllowed
  | notClaimed
  | forbidden
  | unclaimedOk
deriving DecidableEq

/-- Case-insensitive "starts with" (`name.toLowerCase().startsWith(pat)` with
`pat` already lower-case). -/
def startsWithCI : Str → Str → Bool
  | [], _ => true
  | _ :: _, [] => false
  | p :: ps, c :: cs => p = c.toLower && startsWithCI ps cs

/-- `name.replace(/^claimed-+/i, "")`: if the name starts (case-insensitively)
with `claimed-`, remove the seven letters and the whole maximal run of dashes
after them; otherwise leave the name unchanged. -/
def stripClaimedTag (name : Str) : Str :=
  if startsWithCI "claimed-".toList name then
    (name.drop 7).dropWhile (· = '-')
  else name

/-- The `claim_ticket` button handler (the part that runs inside a valid text
channel).  `canManage` is the result of `canManageTicket(member, channel)`.
The handler checks permission, rejects when a claimer is already recorded, and
otherwise stores `makeTopic(t.opened, member.user.id)`; it performs no
renaming. -/
def claimButton (ch : ChannelState) (actorId : Str) (canManage : Bool) :
    ClaimResult × ChannelState :=
  if !canManage then (.notAllowed, ch)
  else
    let t := parseTopic ch.topic
    match t.claimed with
    | some _ => (.alreadyClaimed, ch)
    | none => (.claimedOk, { ch with topic := some (makeTopic t.opened (some actorId)) })

/-- The `/claim` slash-command handler (inside a ticket channel).  After the
permission and already-claimed checks it stores
`opened:${topic.opened || "unknown"};claimed:${interaction.user.id}` and, when
the guild is premium with `autoTagClaims` on, renames the channel to
`("claimed-" + base).slice(0, 90)` where `base` strips any existing
`claimed-` tag, skipping the rename when the name would not change. -/
def claimSlash (ch : ChannelState) (actorId : Str) (canManage : Bool)
    (prem : PremiumFlags) : ClaimResult × ChannelState :=
  if !canManage then (.notAllowed, ch)
  else
    let t := parseTopic ch.topic
    match t.claimed with
    | some _ => (.alreadyClaimed, ch)
    | none =>
      let opened := t.opened.getD "unknown".toList
      let newTopic := "opened:".toList ++ opened ++ ";claimed:".toList ++ actorId
      let ch1 := { ch with topic := some newTopic }
      if prem.isPremium && prem.autoTagClaims then
        let base := stripClaimedTag (if ch1.name = [] then "ticket".toList else ch1.name)
        let nextName := ("claimed-".toList ++ base).take 90
        if nextName ≠ [] ∧ nextName ≠ ch1.name then
          (.claimedOk, { ch1 with name := nextName })
        else (.claimedOk, ch1)
      else (.claimedOk, ch1)

/-- Either claim entry point (`claim_ticket` button when `useButton`, `/claim`
otherwise). -/
def claimVia (useButton : Bool) (ch : ChannelState) (actorId : Str)
    (canManage : Bool) (prem : PremiumFlags) : ClaimResult × ChannelState :=
  if useButton then claimButton ch actorId canManage
  else claimSlash ch actorId canManage prem

/-- The `/unclaim` slash-command handler (inside a ticket channel).  `admin` is
`isAdmin(interaction.member)`.  It rejects when nothing is claimed, rejects a
non-admin who is not the recorded claimer, and otherwise stores
`opened:${topic.opened || "unknown"};claimed:null`; when the guild is premium
with `autoTagClaims` on and the name starts with `claimed-` it renames to
`(base || "ticket").slice(0, 90)` with the tag stripped. -/
def unclaimSlash (ch : ChannelState) (actorId : Str) (canManage admin : Bool)
    (prem : PremiumFlags) : UnclaimResult × ChannelState :=
  if !canManage then (.notAllowed, ch)
  else
    let t := parseTopic ch.topic
    match t.claimed with
    | none => (.notClaimed, ch)
    | some claimer =>
      if claimer ≠ actorId ∧ ¬admin then (.forbidden, ch)
      else
        let opened := t.opened.getD "unknown".toList
        let newTopic := "opened:".toList ++ opened ++ ";claimed:null".toList
        let ch1 := { ch with topic := some newTopic }
        if prem.isPremium && prem.autoTagClaims
            && startsWithCI "claimed-".toList ch1.name then
          let base := stripClaimedTag ch1.name
          let nextName := (if base = [] then "ticket".toList else base).take 90
          (.unclaimedOk, { ch1 with name := nextName })
        else (.unclaimedOk, ch1)

lemma claimVia_rejects (useButton : Bool) (ch : ChannelState) (actorId : Str)
    (prem : PremiumFlags) (c : Str) (h : (parseTopic ch.topic).claimed = some c) :
    claimVia useButton ch actorId true prem = (.alreadyClaimed, ch) := by
  cases useButton <;> simp [claimVia, claimButton, claimSlash, h]

lemma parseTopic_make_none (opener : Str) (ho : idOk opener) :
    parseTopic (some (makeTopic (some opener) none)) = ⟨some opener, none⟩ := by
  rw [parseTopic_make opener none ho (by constructor <;> decide)]
  simp [interpNull, jsClaimVal]

lemma parseTopic_make_some (opener claimer : Str) (ho : idOk opener)
    (hc : idOk claimer) (hnull : claimer ≠ "null".toList) :
    parseTopic (some (makeTopic (some opener) (some claimer))) =
      ⟨some opener, some claimer⟩ := by
  rw [parseTopic_make opener (some claimer) ho hc]
  have hnull' : claimer ≠ ['n', 'u', 'l', 'l'] := by
    intro h
    exact hnull (by rw [h]; decide)
  simp [interpNull, jsClaimVal, hc.1, hnull']

lemma claimVia_success (b : Bool) (opener name actorId : Str) (prem : PremiumFlags)
    (ho : idOk opener) :
    (claimVia b ⟨some (makeTopic (some opener) none), name⟩ actorId true prem).1 = .claimedOk
    ∧ (claimVia b ⟨some (makeTopic (some opener) none), name⟩ actorId true prem).2.topic =
        some (makeTopic (some opener) (some actorId)) := by
  have hparse := parseTopic_make_none opener ho
  cases b with
  | true => simp [claimVia, claimButton, hparse]
  | false =>
    simp [makeTopic, interpNull] at hparse
    simp [claimVia, claimSlash, makeTopic, interpNull, hparse]
    repeat' split
    all_goals simp

/-- C4: a ticket has at most one claimer.  For any channel whose topic records
a claimer, a claim attempt through either the `claim_ticket` button or the
`/claim` command by an actor who passes the `canManageTicket` gate is rejected
with the already-claimed error and the channel (topic and name) is unchanged;
and starting from an unclaimed ticket `opened:{opener};claimed:null`, of two
successive claim attempts by different managing actors (each through either
entry point) the first succeeds, the second fails with the already-claimed
error without changing anything, and the recorded claimer is the first actor. -/
theorem ticket_claim_mutual_exclusion :
    (∀ (useButton : Bool) (ch : ChannelState) (actorId : Str) (prem : PremiumFlags)
      (c : Str), (parseTopic ch.topic).claimed = some c →
      claimVia useButton ch actorId true prem = (.alreadyClaimed, ch))
    ∧ (∀ (b1 b2 : Bool) (opener name a1 a2 : Str) (prem1 prem2 : PremiumFlags),
      idOk opener → idOk a1 → a1 ≠ "null".toList → a1 ≠ a2 →
      (claimVia b1 ⟨some (makeTopic (some opener) none), name⟩ a1 true prem1).1 = .claimedOk
      ∧ claimVia b2 (claimVia b1 ⟨some (makeTopic (some opener) none), name⟩ a1 true prem1).2
          a2 true prem2 =
        (.alreadyClaimed,
          (claimVia b1 ⟨some (makeTopic (some opener) none), name⟩ a1 true prem1).2)
      ∧ (parseTopic (claimVia b1 ⟨some (makeTopic (some opener) none), name⟩
            a1 true prem1).2.topic).claimed = some a1) := by
  constructor
  · exact claimVia_rejects
  · intro b1 b2 opener name a1 a2 prem1 prem2 ho ha1 hnull _hne
    obtain ⟨hok, htopic⟩ := claimVia_success b1 opener name a1 prem1 ho
    have hclaimed : (parseTopic (claimVia b1 ⟨some (makeTopic (some opener) none), name⟩
        a1 true prem1).2.topic).claimed = some a1 := by
      rw [htopic, parseTopic_make_some opener a1 ho ha1 hnull]
    exact ⟨hok, claimVia_rejects b2 _ a2 prem2 a1 hclaimed, hclaimed⟩

theorem ticket_claim_mutual_exclusion_witness :
    (parseTopic (some "opened:111;claimed:222".toList) = ⟨some "111".toList, some "222".toList⟩
      ∧ claimVia true ⟨some "opened:111;claimed:222".toList, "t".toList⟩ "333".toList true
          ⟨false, false⟩ =
        (.alreadyClaimed, ⟨some "opened:111;claimed:222".toList, "t".toList⟩))
    ∧ (idOk "111".toList ∧ idOk "222".toList ∧ ("222".toList : Str) ≠ "null".toList
        ∧ ("222".toList : Str) ≠ "333".toList
      ∧ (claimVia false ⟨some (makeTopic (some "111".toList) none), "t".toList⟩ "222".toList
            true ⟨true, true⟩).1 = .claimedOk
      ∧ claimVia true (claimVia false ⟨some (makeTopic (some "111".toList) none), "t".toList⟩
            "222".toList true ⟨true, true⟩).2 "333".toList true ⟨true, true⟩ =
        (.alreadyClaimed,
          (claimVia false ⟨some (makeTopic (some "111".toList) none), "t".toList⟩
            "222".toList true ⟨true, true⟩).2)
      ∧ (parseTopic (claimVia false ⟨some (makeTopic (some "111".toList) none), "t".toList⟩
            "222".toList true ⟨true, true⟩).2.topic).claimed = some "222".toList) :=
  ⟨⟨by decide,
    ticket_claim_mutual_exclusion.1 true _ "333".toList ⟨false, false⟩ "222".toList
      (by decide)⟩,
    ⟨by decide, by decide, by decide, by decide,
      ticket_claim_mutual_exclusion.2 false true "111".toList "t".toList "222".toList
        "333".toList ⟨true, true⟩ ⟨true, true⟩ (by decide) (by decide) (by decide)
        (by decide)⟩⟩

/-- C5 counterexample: the claim as stated is false.  A guild that is not
premium (or whose `autoTagClaims` feature is off — e.g. premium expired after
the ticket was claimed) has a ticket `opened:1;claimed:2` whose channel name
`claimed-abc` still carries the auto-tag prefix.  The claimer themselves
unclaims: the operation succeeds and clears the claimer, but the `claimed-`
name prefix — present — is NOT reversed, because the source only strips it
when `prem.isPremium && prem.features.autoTagClaims` holds. -/
theorem unclaim_autotag_cex :
    unclaimSlash ⟨some "opened:1;claimed:2".toList, "claimed-abc".toList⟩ "2".toList true false
        ⟨false, false⟩ =
      (.unclaimedOk, ⟨some "opened:1;claimed:null".toList, "claimed-abc".toList⟩)
    ∧ startsWithCI "claimed-".toList "claimed-abc".toList = true := by
  decide

/-- C5 (amended): unclaim is guarded.  On an unclaimed ticket, unclaim by a
managing actor fails with the not-claimed error and changes nothing; on a
ticket claimed by another actor, unclaim by a managing non-admin fails with
the forbidden error and the state is unchanged; the current claimer or an
admin can clear the claimer, and — provided the premium auto-tag feature is
currently enabled — this also reverses the auto-tag `claimed-` name prefix if
present (with the feature disabled the name is left untouched). -/
theorem unclaim_guarded_amended :
    (∀ (ch : ChannelState) (actorId : Str) (admin : Bool) (prem : PremiumFlags),
      (parseTopic ch.topic).claimed = none →
      unclaimSlash ch actorId true admin prem = (.notClaimed, ch))
    ∧ (∀ (ch : ChannelState) (actorId : Str) (prem : PremiumFlags) (c : Str),
      (parseTopic ch.topic).claimed = some c → c ≠ actorId →
      unclaimSlash ch actorId true false prem = (.forbidden, ch))
    ∧ (∀ (opener claimer name actorId : Str) (admin : Bool) (prem : PremiumFlags),
      idOk opener → idOk claimer → claimer ≠ "null".toList →
      (claimer = actorId ∨ admin = true) →
      (unclaimSlash ⟨some (makeTopic (some opener) (some claimer)), name⟩ actorId true admin
          prem).1 = .unclaimedOk
      ∧ parseTopic (unclaimSlash ⟨some (makeTopic (some opener) (some claimer)), name⟩
            actorId true admin prem).2.topic = ⟨some opener, none⟩
      ∧ (unclaimSlash ⟨some (makeTopic (some opener) (some claimer)), name⟩ actorId true admin
            prem).2.name =
          (if prem.isPremium && prem.autoTagClaims
              && startsWithCI "claimed-".toList name then
            (if stripClaimedTag name = [] then "ticket".toList else stripClaimedTag name).take 90
          else name)) := by
  refine ⟨?_, ?_, ?_⟩
  · intro ch actorId admin prem h
    simp [unclaimSlash, h]
  · intro ch actorId prem c h hne
    simp [unclaimSlash, h, hne]
  · intro opener claimer name actorId admin prem ho hc hnull hor
    have hparse := parseTopic_make_some opener claimer ho hc hnull
    have hparse2 := parseTopic_make_none opener ho
    have hforbid : ¬(claimer ≠ actorId ∧ ¬admin = true) := by
      rcases hor with h | h
      · simp [h]
      · simp [h]
    simp [makeTopic, interpNull] at hparse hparse2
    simp [unclaimSlash, makeTopic, interpNull, hparse, hparse2, hforbid]
    repeat' split
    all_goals simp_all

theorem unclaim_guarded_amended_witness :
    (parseTopic (some "opened:1;claimed:null".toList) = ⟨some "1".toList, none⟩
      ∧ unclaimSlash ⟨some "opened:1;claimed:null".toList, "x".toList⟩ "2".toList true false
          ⟨true, true⟩ =
        (.notClaimed, ⟨some "opened:1;claimed:null".toList, "x".toList⟩))
    ∧ (parseTopic (some "opened:1;claimed:2".toList) = ⟨some "1".toList, some "2".toList⟩
      ∧ ("2".toList : Str) ≠ "3".toList
      ∧ unclaimSlash ⟨some "opened:1;claimed:2".toList, "x".toList⟩ "3".toList true false
          ⟨true, true⟩ =
        (.forbidden, ⟨some "opened:1;claimed:2".toList, "x".toList⟩))
    ∧ (idOk "1".toList ∧ idOk "2".toList ∧ ("2".toList : Str) ≠ "null".toList
      ∧ (("2".toList : Str) = "2".toList ∨ false = true)
      ∧ (unclaimSlash ⟨some (makeTopic (some "1".toList) (some "2".toList)),
            "claimed-abc".toList⟩ "2".toList true false ⟨true, true⟩).1 = .unclaimedOk
      ∧ parseTopic (unclaimSlash ⟨some (makeTopic (some "1".toList) (some "2".toList)),
            "claimed-abc".toList⟩ "2".toList true false ⟨true, true⟩).2.topic =
          ⟨some "1".toList, none⟩
      ∧ (unclaimSlash ⟨some (makeTopic (some "1".toList) (some "2".toList)),
            "claimed-abc".toList⟩ "2".toList true false ⟨true, true⟩).2.name =
          (if (true : Bool) && (true : Bool)
              && startsWithCI "claimed-".toList "claimed-abc".toList then
            (if stripClaimedTag "claimed-abc".toList = []
              then "ticket".toList else stripClaimedTag "claimed-abc".toList).take 90
          else "claimed-abc".toList)) :=
  ⟨⟨by decide,
    unclaim_guarded_amended.1 ⟨some "opened:1;claimed:null".toList, "x".toList⟩ "2".toList
      false ⟨true, true⟩ (by decide)⟩,
    ⟨by decide, by decide,
      unclaim_guarded_amended.2.1 ⟨some "opened:1;claimed:2".toList, "x".toList⟩ "3".toList
        ⟨true, true⟩ "2".toList (by decide) (by decide)⟩,
    ⟨by decide, by decide, by decide, Or.inl rfl,
      unclaim_guarded_amended.2.2 "1".toList "2".toList "claimed-abc".toList "2".toList
        false ⟨true, true⟩ (by decide) (by decide) (by decide) (Or.inl rfl)⟩⟩

/-! ## Premium entitlement: stored shape, read view, expiry, redemption -/

/-- `/^[0-9]{15,25}$/` on a string (`isValidSnowflake` from the source). -/
def isValidSnowflake (s : String) : Bool :=
  decide (15 ≤ s.length) && decide (s.length ≤ 25) && s.toList.all Char.isDigit

/-- Raw per-ticket-type ping settings as stored (`features.ticketPings.support`
etc.); every field may be absent. -/
structure TicketPingRaw where
  roles : Option (List String)
  here : Option Bool
  everyone : Option Bool
deriving DecidableEq

structure TicketPingsRaw where
  support : Option TicketPingRaw
  trade : Option TicketPingRaw
deriving DecidableEq

/-- Raw premium `features` object as stored on disk; all keys optional.  The
fields carry the types this program itself writes (the `typeof`/`Array.isArray`
/`Number.isFinite` guards in `getPremiumState` reduce to these `Option`
matches for program-written data). -/
structure FeaturesRaw where
  ticketPings : Option TicketPingsRaw
  pingMode : Option String
  pingRoleId : Option String
  pingRoleIds : Option (List String)
  ticketNameTemplate : Option String
  welcomeMessage : Option String
  botNickname : Option String
  transcripts : Option Bool
  transcriptChannelId : Option String
  autoCloseMinutes : Option Int
  customCloseReasons : Option (List String)
  autoTagClaims : Option Bool
  prioritySupport : Option Bool
deriving DecidableEq

def emptyFeaturesRaw : FeaturesRaw :=
  ⟨none, none, none, none, none, none, none, none, none, none, none, none, none⟩

structure BrandingRaw where
  name : Option String
  iconUrl : Option String
  accent : Option String
deriving DecidableEq

def emptyBrandingRaw : BrandingRaw := ⟨none, none, none⟩

/-- A raw `PREMIUM_GUILDS[guildId]` record.  `expiresAt`: `none` when absent or
falsy, `some none` when present but `Date.parse` of it is not finite,
`some (some t)` when it parses to time `t` (milliseconds). -/
structure PremiumRaw where
  isPremium : Bool
  plan : Option String
  activatedAt : Option Int
  expiresAt : Option (Option Int)
  branding : Option BrandingRaw
  features : Option FeaturesRaw
deriving DecidableEq

/-- `PREMIUM_GUILDS[guildId] || {}` for an absent guild. -/
def emptyPremiumRaw : PremiumRaw := ⟨false, none, none, none, none, none⟩

structure PingView where
  roles : List String
  here : Bool
  everyone : Bool
deriving DecidableEq

structure BrandingView where
  name : String
  iconUrl : Option String
  accent : Option String
deriving DecidableEq

structure FeaturesView where
  pingsSupport : PingView
  pingsTrade : PingView
  pingMode : String
  pingRoleId : Option String
  pingRoleIds : List String
  ticketNameTemplate : String
  welcomeMessage : String
  botNickname : Option String
  transcripts : Bool
  transcriptChannelId : Option String
  autoCloseMinutes : Int
  customCloseReasons : List String
  autoTagClaims : Bool
  prioritySupport : Bool
deriving DecidableEq

/-- The record `getPremiumState` returns. -/
structure PremiumView where
  isPremium : Bool
  plan : Option String
  activatedAt : Option Int
  expiresAt : Option (Option Int)
  branding : BrandingView
  features : FeaturesView
deriving DecidableEq

/-- `s || null` on an optional string (empty string is falsy). -/
def jsStrOrNull : Option String → Option String
  | some s => if s = "" then none else some s
  | none => none

/-- `typeof s === "string" && s.trim() ? s : dflt`. -/
def strOrDefault (s : Option String) (dflt : String) : String :=
  match s with
  | some v => if v.trim = "" then dflt else v
  | none => dflt

def viewPing (p : Option TicketPingRaw) : PingView :=
  match p with
  | some q =>
    ⟨(q.roles.getD []).filter (fun r => isValidSnowflake r),
      q.here.getD false, q.everyone.getD false⟩
  | none => ⟨[], false, false⟩

/-- The body of `getPremiumState`'s returned object, computed from a raw
record (after the expiry side effect). -/
def viewOfRaw (raw : PremiumRaw) : PremiumView :=
  let branding := raw.branding.getD emptyBrandingRaw
  let features := raw.features.getD emptyFeaturesRaw
  { isPremium := raw.isPremium
    plan := jsStrOrNull raw.plan
    activatedAt := raw.activatedAt
    expiresAt := raw.expiresAt
    branding :=
      { name := strOrDefault branding.name "Nozzarri Tickets"
        iconUrl := branding.iconUrl
        accent := branding.accent }
    features :=
      { pingsSupport := viewPing (features.ticketPings.bind (·.support))
        pingsTrade := viewPing (features.ticketPings.bind (·.trade))
        pingMode := (features.pingMode).getD "here"
        pingRoleId := features.pingRoleId
        pingRoleIds := (features.pingRoleIds.getD []).filter (fun r => isValidSnowflake r)
        ticketNameTemplate := strOrDefault features.ticketNameTemplate "ticket-{user}"
        welcomeMessage := (features.welcomeMessage).getD ""
        botNickname := features.botNickname
        transcripts := features.transcripts.getD false
        transcriptChannelId := features.transcriptChannelId
        autoCloseMinutes := features.autoCloseMinutes.getD 0
        customCloseReasons := features.customCloseReasons.getD []
        autoTagClaims := features.autoTagClaims.getD false
        prioritySupport := features.prioritySupport.getD false } }

/-- `ensurePremiumActiveOrExpire(guildId)`: when the stored record is premium
with a parseable `expiresAt` strictly in the past, write back the same record
with `isPremium: false` (the `writeJsonSafe` disk write mirrors the in-memory
store, which this function models). -/
def ensurePremiumActiveOrExpire (now : Int) (store : Store PremiumRaw)
    (guildId : String) : Store PremiumRaw :=
  match store guildId with
  | none => store
  | some s =>
    if !s.isPremium then store
    else
      match s.expiresAt with
      | none => store
      | some none => store
      | some (some ms) =>
        if now > ms then store.update guildId { s with isPremium := false }
        else store

/-- `getPremiumState(guildId)`: expiry side effect first, then the defaulted
view of the (possibly absent) record.  Returns the view together with the
store after the side effect. -/
def getPremiumState (now : Int) (store : Store PremiumRaw) (guildId : String) :
    PremiumView × Store PremiumRaw :=
  let store1 := ensurePremiumActiveOrExpire now store guildId
  (viewOfRaw ((store1 guildId).getD emptyPremiumRaw), store1)

/-- The patch `savePremiumState` receives from the redeem handler: the four
scalar keys (always present there); `branding`/`features` are not in the
patch, so the spread merge keeps the raw ones (materialising `{}` when they
were absent, exactly as `{...(raw.branding || {})}` does). -/
structure PremiumPatch where
  isPremium : Option Bool
  plan : Option String
  activatedAt : Option Int
  expiresAt : Option (Option Int)
deriving DecidableEq

/-- `savePremiumState(guildId, patch)` for a scalar patch: spread-merge over
the raw record, store it, and return `getPremiumState(guildId)`. -/
def savePremiumState (now : Int) (store : Store PremiumRaw) (guildId : String)
    (patch : PremiumPatch) : PremiumView × Store PremiumRaw :=
  let raw := (store guildId).getD emptyPremiumRaw
  let nextRaw : PremiumRaw :=
    { isPremium := patch.isPremium.getD raw.isPremium
      plan := patch.plan <|> raw.plan
      activatedAt := patch.activatedAt <|> raw.activatedAt
      expiresAt := patch.expiresAt <|> raw.expiresAt
      branding := some (raw.branding.getD emptyBrandingRaw)
      features := some (raw.features.getD emptyFeaturesRaw) }
  getPremiumState now (store.update guildId nextRaw) guildId

/-- A raw `PREMIUM_KEYS[key]` record.  `durationMs`/`durationDays` are `some`
exactly when `Number.isFinite` holds of the stored value.  `usedAt`/`createdAt`
are modelled by the millisecond time their ISO strings denote. -/
structure KeyRecord where
  plan : Option String
  durationMs : Option Int
  durationDays : Option Int
  createdAt : Option Int
  createdBy : Option String
  used : Bool
  usedByGuildId : Option String
  usedAt : Option Int
deriving DecidableEq

/-- The two persisted documents the redeem handler touches. -/
structure RedeemState where
  keys : Store KeyRecord
  premium : Store PremiumRaw

inductive RedeemOutcome where
  | notOwner
  | missingKey
  | invalidKey
  | alreadyUsed
  | success
deriving DecidableEq

/-- `s || dflt` for a string that may be absent or empty. -/
def jsStrOrElse (s : Option String) (dflt : String) : String :=
  match s with
  | some v => if v = "" then dflt else v
  | none => dflt

/-- The `?premium-redeem <key>` handler.  Only the guild owner may redeem; an
unknown key and an already-used key are rejected before any mutation; a fresh
key is marked `used/usedByGuildId/usedAt`, and premium is activated or
extended: the added duration is `durationMs` when finite else
`(durationDays ?? 30) * 86400000`, and the base is the current expiry when it
parses to a future time, else `now`. -/
def premiumRedeem (st : RedeemState) (guildId ownerId actorId : String)
    (key : Option String) (now : Int) : RedeemOutcome × RedeemState :=
  if actorId ≠ ownerId then (.notOwner, st)
  else
    match key with
    | none => (.missingKey, st)
    | some key =>
      match st.keys key with
      | none => (.invalidKey, st)
      | some k =>
        if k.used then (.alreadyUsed, st)
        else
          let keys1 := st.keys.update key
            { k with used := true, usedByGuildId := some guildId, usedAt := some now }
          let addMs : Int :=
            match k.durationMs with
            | some ms => ms
            | none => (k.durationDays.getD 30) * 86400000
          let current := (st.premium guildId).getD emptyPremiumRaw
          let base : Int :=
            match current.expiresAt with
            | some (some cur) => if cur > now then cur else now
            | _ => now
          let patch : PremiumPatch :=
            { isPremium := some true
              plan := some (jsStrOrElse k.plan "custom")
              activatedAt := some (current.activatedAt.getD now)
              expiresAt := some (some (base + addMs)) }
          let prem1 := (savePremiumState now st.premium guildId patch).2
          (.success, ⟨keys1, prem1⟩)

/-- C1: a license key is single-use.  First conjunct: redeeming a fresh key as
the guild owner succeeds and stamps `used:true`, `usedByGuildId` and `usedAt`
on the key record.  Second conjunct: any owner-issued redemption of a key
already marked used fails with the already-used outcome and returns the state
(keys and premium) completely unchanged.  Third conjunct: chaining the two —
after a successful first redemption, a second redemption of the same key (by
any guild's owner) fails and leaves the post-first-redemption state intact. -/
theorem key_single_use :
    (∀ (st : RedeemState) (g o key : String) (k : KeyRecord) (now : Int),
      st.keys key = some k → k.used = false →
      (premiumRedeem st g o o (some key) now).1 = .success
      ∧ ((premiumRedeem st g o o (some key) now).2).keys key =
          some { k with used := true, usedByGuildId := some g, usedAt := some now })
    ∧ (∀ (st : RedeemState) (g o key : String) (k : KeyRecord) (now : Int),
      st.keys key = some k → k.used = true →
      premiumRedeem st g o o (some key) now = (.alreadyUsed, st))
    ∧ (∀ (st : RedeemState) (g o g2 o2 key : String) (k : KeyRecord) (now now2 : Int),
      st.keys key = some k → k.used = false →
      premiumRedeem ((premiumRedeem st g o o (some key) now).2) g2 o2 o2 (some key) now2 =
        (.alreadyUsed, (premiumRedeem st g o o (some key) now).2)) := by
  have hkeys : ∀ (st : RedeemState) (g o key : String) (k : KeyRecord) (now : Int),
      st.keys key = some k → k.used = false →
      ((premiumRedeem st g o o (some key) now).2).keys key =
        some { k with used := true, usedByGuildId := some g, usedAt := some now } := by
    intro st g o key k now hk hu
    simp [premiumRedeem, hk, hu, Store.update]
  have hsucc : ∀ (st : RedeemState) (g o key : String) (k : KeyRecord) (now : Int),
      st.keys key = some k → k.used = false →
      (premiumRedeem st g o o (some key) now).1 = .success := by
    intro st g o key k now hk hu
    simp [premiumRedeem, hk, hu]
  have hused : ∀ (st : RedeemState) (g o key : String) (k : KeyRecord) (now : Int),
      st.keys key = some k → k.used = true →
      premiumRedeem st g o o (some key) now = (.alreadyUsed, st) := by
    intro st g o key k now hk hu
    simp [premiumRedeem, hk, hu]
  refine ⟨fun st g o key k now hk hu => ⟨hsucc st g o key k now hk hu, hkeys st g o key k now hk hu⟩,
    hused, ?_⟩
  intro st g o g2 o2 key k now now2 hk hu
  exact hused _ g2 o2 key _ now2 (hkeys st g o key k now hk hu) rfl

theorem key_single_use_witness :
    (⟨fun q => if q = "DS-AAAA-BBBB-CCCC" then
        some ⟨some "15d", some 1296000000, some 15, some 0, some "9", false, none, none⟩
      else none, fun _ => none⟩ : RedeemState).keys "DS-AAAA-BBBB-CCCC" =
        some ⟨some "15d", some 1296000000, some 15, some 0, some "9", false, none, none⟩
    ∧ (⟨some "15d", some 1296000000, some 15, some 0, some "9", false, none, none⟩ :
        KeyRecord).used = false
    ∧ premiumRedeem ((premiumRedeem
          ⟨fun q => if q = "DS-AAAA-BBBB-CCCC" then
              some ⟨some "15d", some 1296000000, some 15, some 0, some "9", false, none, none⟩
            else none, fun _ => none⟩
          "77" "8" "8" (some "DS-AAAA-BBBB-CCCC") 1000).2)
        "66" "5" "5" (some "DS-AAAA-BBBB-CCCC") 2000 =
      (.alreadyUsed, (premiumRedeem
          ⟨fun q => if q = "DS-AAAA-BBBB-CCCC" then
              some ⟨some "15d", some 1296000000, some 15, some 0, some "9", false, none, none⟩
            else none, fun _ => none⟩
          "77" "8" "8" (some "DS-AAAA-BBBB-CCCC") 1000).2) :=
  ⟨rfl, rfl,
    key_single_use.2.2 _ "77" "8" "66" "5" "DS-AAAA-BBBB-CCCC"
      ⟨some "15d", some 1296000000, some 15, some 0, some "9", false, none, none⟩
      1000 2000 rfl rfl⟩

/-- C2: redeeming a key of duration `D` (milliseconds) extends premium and
never shortens it.  With the guild's current `expiresAt` parsing to `now + X`
(`X > 0`), the stored record after redemption has `expiresAt = now + X + D`;
with `expiresAt` parsing to a past time, with the `expiresAt` field absent, or
with no premium record at all, it has `expiresAt = now + D`.  In every case
redemption sets `isPremium` and stores `activatedAt` as the original one when
present (falling back to the redemption time). -/
theorem redeem_extends_premium :
    ∀ (st : RedeemState) (g o key : String) (k : KeyRecord) (now D : Int),
      st.keys key = some k → k.used = false → k.durationMs = some D → 0 < D →
      ((∀ (cur : PremiumRaw) (X : Int), st.premium g = some cur →
          cur.expiresAt = some (some (now + X)) → 0 < X →
          ∃ nr, ((premiumRedeem st g o o (some key) now).2).premium g = some nr
            ∧ nr.expiresAt = some (some (now + X + D))
            ∧ nr.isPremium = true
            ∧ nr.activatedAt = some (cur.activatedAt.getD now))
      ∧ (∀ (cur : PremiumRaw) (t : Int), st.premium g = some cur →
          cur.expiresAt = some (some t) → t ≤ now →
          ∃ nr, ((premiumRedeem st g o o (some key) now).2).premium g = some nr
            ∧ nr.expiresAt = some (some (now + D))
            ∧ nr.isPremium = true
            ∧ nr.activatedAt = some (cur.activatedAt.getD now))
      ∧ (∀ cur : PremiumRaw, st.premium g = some cur → cur.expiresAt = none →
          ∃ nr, ((premiumRedeem st g o o (some key) now).2).premium g = some nr
            ∧ nr.expiresAt = some (some (now + D))
            ∧ nr.isPremium = true
            ∧ nr.activatedAt = some (cur.activatedAt.getD now))
      ∧ (st.premium g = none →
          ∃ nr, ((premiumRedeem st g o o (some key) now).2).premium g = some nr
            ∧ nr.expiresAt = some (some (now + D))
            ∧ nr.isPremium = true
            ∧ nr.activatedAt = some now)) := by
  intro st g o key k now D hk hu hms hD
  refine ⟨?_, ?_, ?_, ?_⟩
  · intro cur X hcur hexp hX
    have hfut : now + X > now := by omega
    have hnodemote : ¬ now > now + X + D := by omega
    refine ⟨⟨true, some (jsStrOrElse k.plan "custom"), some (cur.activatedAt.getD now),
      some (some (now + X + D)), some (cur.branding.getD emptyBrandingRaw),
      some (cur.features.getD emptyFeaturesRaw)⟩, ?_, rfl, rfl, rfl⟩
    simp [premiumRedeem, hk, hu, hms, hcur, hexp, hfut, savePremiumState,
      getPremiumState, ensurePremiumActiveOrExpire, Store.update, hnodemote]
  · intro cur t hcur hexp ht
    have hnofut : ¬ t > now := by omega
    have hnodemote : ¬ now > now + D := by omega
    refine ⟨⟨true, some (jsStrOrElse k.plan "custom"), some (cur.activatedAt.getD now),
      some (some (now + D)), some (cur.branding.getD emptyBrandingRaw),
      some (cur.features.getD emptyFeaturesRaw)⟩, ?_, rfl, rfl, rfl⟩
    simp [premiumRedeem, hk, hu, hms, hcur, hexp, hnofut, savePremiumState,
      getPremiumState, ensurePremiumActiveOrExpire, Store.update, hnodemote]
  · intro cur hcur hexp
    have hnodemote : ¬ now > now + D := by omega
    refine ⟨⟨true, some (jsStrOrElse k.plan "custom"), some (cur.activatedAt.getD now),
      some (some (now + D)), some (cur.branding.getD emptyBrandingRaw),
      some (cur.features.getD emptyFeaturesRaw)⟩, ?_, rfl, rfl, rfl⟩
    simp [premiumRedeem, hk, hu, hms, hcur, hexp, savePremiumState,
      getPremiumState, ensurePremiumActiveOrExpire, Store.update, hnodemote]
  · intro hcur
    have hnodemote : ¬ now > now + D := by omega
    refine ⟨⟨true, some (jsStrOrElse k.plan "custom"), some now,
      some (some (now + D)), some emptyBrandingRaw, some emptyFeaturesRaw⟩, ?_, rfl, rfl, rfl⟩
    simp [premiumRedeem, hk, hu, hms, hcur, savePremiumState, emptyPremiumRaw,
      getPremiumState, ensurePremiumActiveOrExpire, Store.update, hnodemote,
      emptyBrandingRaw, emptyFeaturesRaw]

/-- C3: premium expiry is lazily and monotonically enforced.  For a stored
record whose `expiresAt` parses to a time strictly before `now`, a call to
`getPremiumState` (which every feature check goes through before reading any
flag) returns the view of the demoted record — in particular
`isPremium = false` — and persists the demotion; any subsequent read, at any
time, still reports `isPremium = false` and does not change the store again. -/
theorem premium_expiry_lazy_demotion :
    ∀ (store : Store PremiumRaw) (g : String) (raw : PremiumRaw) (t now : Int),
      store g = some raw → raw.expiresAt = some (some t) → t < now →
      ((getPremiumState now store g).1).isPremium = false
      ∧ (getPremiumState now store g).1 = viewOfRaw { raw with isPremium := false }
      ∧ ((getPremiumState now store g).2) g = some { raw with isPremium := false }
      ∧ (∀ now2 : Int,
          ((getPremiumState now2 ((getPremiumState now store g).2) g).1).isPremium = false
          ∧ (getPremiumState now2 ((getPremiumState now store g).2) g).2 =
              (getPremiumState now store g).2) := by
  intro store g raw t now hg hexp ht
  have hdemote : now > t := by omega
  cases hp : raw.isPremium with
  | true =>
    have hstore1 : (getPremiumState now store g).2 =
        store.update g { raw with isPremium := false } := by
      simp [getPremiumState, ensurePremiumActiveOrExpire, hg, hexp, hp, hdemote]
    have hview : (getPremiumState now store g).1 = viewOfRaw { raw with isPremium := false } := by
      simp [getPremiumState, ensurePremiumActiveOrExpire, hg, hexp, hp, hdemote, Store.update]
    refine ⟨by rw [hview]; rfl, hview, by rw [hstore1]; simp [Store.update], ?_⟩
    intro now2
    rw [hstore1]
    constructor
    · simp [getPremiumState, ensurePremiumActiveOrExpire, Store.update, viewOfRaw]
    · simp [getPremiumState, ensurePremiumActiveOrExpire, Store.update]
  | false =>
    have hraw : { raw with isPremium := false } = raw := by
      cases raw
      simp_all
    have hstore1 : (getPremiumState now store g).2 = store := by
      simp [getPremiumState, ensurePremiumActiveOrExpire, hg, hp]
    have hview : (getPremiumState now store g).1 = viewOfRaw { raw with isPremium := false } := by
      simp [getPremiumState, ensurePremiumActiveOrExpire, hg, hp, hraw]
    refine ⟨by rw [hview]; rfl, hview, by rw [hstore1, hg, hraw], ?_⟩
    intro now2
    rw [hstore1]
    constructor
    · simp [getPremiumState, ensurePremiumActiveOrExpire, hg, hp, viewOfRaw]
    · simp [getPremiumState, ensurePremiumActiveOrExpire, hg, hp]

/-- Concrete key record used by the redemption witness. -/
def wKeyRec : KeyRecord := ⟨some "1m", some 100, some 30, none, none, false, none, none⟩

/-- Concrete pre-redemption premium record used by the redemption witness. -/
def wCurRaw : PremiumRaw := ⟨true, some "1m", some 5, some (some 1010), none, none⟩

/-- Concrete two-document state used by the redemption witness. -/
def wRedeemSt : RedeemState :=
  ⟨fun q => if q = "K" then some wKeyRec else none,
    fun q => if q = "7" then some wCurRaw else none⟩

theorem redeem_extends_premium_witness :
    wRedeemSt.keys "K" = some wKeyRec ∧ wKeyRec.used = false
    ∧ wKeyRec.durationMs = some 100 ∧ (0 : Int) < 100
    ∧ wRedeemSt.premium "7" = some wCurRaw
    ∧ wCurRaw.expiresAt = some (some (1000 + 10)) ∧ (0 : Int) < 10
    ∧ ∃ nr, ((premiumRedeem wRedeemSt "7" "8" "8" (some "K") 1000).2).premium "7" = some nr
        ∧ nr.expiresAt = some (some (1000 + 10 + 100))
        ∧ nr.isPremium = true
        ∧ nr.activatedAt = some (wCurRaw.activatedAt.getD 1000) :=
  ⟨rfl, rfl, rfl, by decide, rfl, by decide, by decide,
    (redeem_extends_premium wRedeemSt "7" "8" "K" wKeyRec 1000 100 rfl rfl rfl
        (by decide)).1 wCurRaw 10 rfl (by decide) (by decide)⟩

/-- Concrete expired premium record used by the expiry witness. -/
def wExpRaw : PremiumRaw := ⟨true, some "15d", some 1, some (some 500), none, none⟩

/-- Concrete premium store used by the expiry witness. -/
def wExpStore : Store PremiumRaw := fun q => if q = "9" then some wExpRaw else none

theorem premium_expiry_lazy_demotion_witness :
    wExpStore "9" = some wExpRaw ∧ wExpRaw.expiresAt = some (some 500) ∧ (500 : Int) < 600
    ∧ (((getPremiumState 600 wExpStore "9").1).isPremium = false
      ∧ (getPremiumState 600 wExpStore "9").1 = viewOfRaw { wExpRaw with isPremium := false }
      ∧ ((getPremiumState 600 wExpStore "9").2) "9" = some { wExpRaw with isPremium := false }
      ∧ (∀ now2 : Int,
          ((getPremiumState now2 ((getPremiumState 600 wExpStore "9").2) "9").1).isPremium =
            false
          ∧ (getPremiumState now2 ((getPremiumState 600 wExpStore "9").2) "9").2 =
              (getPremiumState 600 wExpStore "9").2)) :=
  ⟨rfl, rfl, by decide,
    premium_expiry_lazy_demotion wExpStore "9" wExpRaw 500 600 rfl rfl (by decide)⟩

/-! ## Guild configuration -/

structure PanelTextRaw where
  supportDescription : Option String
  tradeDescription : Option String
deriving DecidableEq

/-- A raw `GUILD_CONFIGS[guildId]` record: every key may be absent (older
schemas had no explicit toggles). -/
structure ConfigRecord where
  supportCategoryId : Option String
  mmCategoryId : Option String
  logChannelId : Option String
  supportEnabled : Option Bool
  tradeEnabled : Option Bool
  logsEnabled : Option Bool
  supportRoles : Option (List String)
  mmRoles : Option (List String)
  adminRoles : Option (List String)
  panelText : Option PanelTextRaw
deriving DecidableEq

def emptyConfigRecord : ConfigRecord :=
  ⟨none, none, none, none, none, none, none, none, none, none⟩

/-- The fully-defaulted object `getGuildConfig` returns. -/
structure GuildConfig where
  supportCategoryId : Option String
  mmCategoryId : Option String
  logChannelId : Option String
  supportEnabled : Bool
  tradeEnabled : Bool
  logsEnabled : Bool
  supportRoles : List String
  mmRoles : List String
  adminRoles : List String
  panelText : PanelTextRaw
deriving DecidableEq

/-- `normalizeArray` from the source: keep only well-formed snowflakes. -/
def normalizeArray (l : List String) : List String :=
  l.filter (fun r => isValidSnowflake r)

/-- JavaScript truthiness of an optional string (`!!x`): absent and `""` are
falsy. -/
def jsTruthyStr : Option String → Bool
  | some s => if s = "" then false else true
  | none => false

/-- `getGuildConfig(guildId)`: defaults spread under the saved record, with
the three `enabled` booleans re-derived — the explicit toggle when the key is
present, otherwise the truthiness of the corresponding category/channel id —
and role lists normalized.  A pure read: the store is not modified. -/
def getGuildConfig (store : Store ConfigRecord) (guildId : String) : GuildConfig :=
  let saved := (store guildId).getD emptyConfigRecord
  { supportCategoryId := saved.supportCategoryId
    mmCategoryId := saved.mmCategoryId
    logChannelId := saved.logChannelId
    supportEnabled :=
      match saved.supportEnabled with
      | some b => b
      | none => jsTruthyStr saved.supportCategoryId
    tradeEnabled :=
      match saved.tradeEnabled with
      | some b => b
      | none => jsTruthyStr saved.mmCategoryId
    logsEnabled :=
      match saved.logsEnabled with
      | some b => b
      | none => jsTruthyStr saved.logChannelId
    supportRoles := normalizeArray (saved.supportRoles.getD [])
    mmRoles := normalizeArray (saved.mmRoles.getD [])
    adminRoles := normalizeArray (saved.adminRoles.getD [])
    panelText := saved.panelText.getD ⟨none, none⟩ }

lemma jsTruthyStr_iff (o : Option String) :
    jsTruthyStr o = true ↔ ∃ s, o = some s ∧ s ≠ "" := by
  cases o with
  | none => simp [jsTruthyStr]
  | some s =>
    by_cases hs : s = "" <;> simp [jsTruthyStr, hs]

/-- C8: for a stored guild config that predates the explicit toggles (none of
`supportEnabled`/`tradeEnabled`/`logsEnabled` present), `getGuildConfig`
reports each feature enabled exactly when the corresponding category/channel
id is set (present and non-empty).  The inference is made at read time:
`getGuildConfig` is a pure function of the store and writes nothing back, so
the persisted record keeps lacking the toggle keys. -/
theorem legacy_toggle_inference :
    ∀ (store : Store ConfigRecord) (g : String) (saved : ConfigRecord),
      store g = some saved →
      saved.supportEnabled = none → saved.tradeEnabled = none → saved.logsEnabled = none →
      ((getGuildConfig store g).supportEnabled = true ↔
        ∃ s, saved.supportCategoryId = some s ∧ s ≠ "")
      ∧ ((getGuildConfig store g).tradeEnabled = true ↔
        ∃ s, saved.mmCategoryId = some s ∧ s ≠ "")
      ∧ ((getGuildConfig store g).logsEnabled = true ↔
        ∃ s, saved.logChannelId = some s ∧ s ≠ "") := by
  intro store g saved hg h1 h2 h3
  refine ⟨?_, ?_, ?_⟩ <;>
    simp [getGuildConfig, hg, h1, h2, h3, jsTruthyStr_iff]

/-- Concrete legacy (toggle-free) config record used by the inference witness:
support category set, no trade category, log channel stored as the empty
string. -/
def wLegacyRec : ConfigRecord :=
  ⟨some "123456789012345678", none, some "", none, none, none, none, none, none, none⟩

/-- Concrete config store used by the inference witness. -/
def wLegacyStore : Store ConfigRecord := fun q => if q = "5" then some wLegacyRec else none

theorem legacy_toggle_inference_witness :
    wLegacyStore "5" = some wLegacyRec
    ∧ wLegacyRec.supportEnabled = none ∧ wLegacyRec.tradeEnabled = none
    ∧ wLegacyRec.logsEnabled = none
    ∧ (((getGuildConfig wLegacyStore "5").supportEnabled = true ↔
        ∃ s, wLegacyRec.supportCategoryId = some s ∧ s ≠ "")
      ∧ ((getGuildConfig wLegacyStore "5").tradeEnabled = true ↔
        ∃ s, wLegacyRec.mmCategoryId = some s ∧ s ≠ "")
      ∧ ((getGuildConfig wLegacyStore "5").logsEnabled = true ↔
        ∃ s, wLegacyRec.logChannelId = some s ∧ s ≠ "")) :=
  ⟨rfl, rfl, rfl, rfl,
    legacy_toggle_inference wLegacyStore "5" wLegacyRec rfl rfl rfl rfl⟩

/-! ## Dashboard save route -/

/-- `cleanId` from the dashboard: trim, empty means null, otherwise the value
must match `/^\d{10,25}$/`. -/
def cleanId (v : Option String) : Option String :=
  let s := (v.getD "").trim
  if s = "" then none
  else if 10 ≤ s.length ∧ s.length ≤ 25 ∧ s.toList.all Char.isDigit then some s
  else none

/-- `parseIdList` from the dashboard: split on commas, trim each piece, keep
those matching `/^\d{10,25}$/`. -/
def parseIdList (v : Option String) : List String :=
  let s := (v.getD "").trim
  if s = "" then []
  else ((s.splitOn ",").map (fun x => x.trim)).filter
    (fun x => decide (10 ≤ x.length) && decide (x.length ≤ 25) && x.toList.all Char.isDigit)

/-- The form fields posted to `/server/:guildId/save`. -/
structure SaveBody where
  supportCategoryId : Option String
  mmCategoryId : Option String
  logChannelId : Option String
  transcriptChannelId : Option String
  supportRoles : Option String
  mmRoles : Option String
  adminRoles : Option String

/-- The patch object the save route builds from the request body. -/
structure DashPatch where
  supportCategoryId : Option String
  mmCategoryId : Option String
  logChannelId : Option String
  transcriptChannelId : Option String
  supportRoles : List String
  mmRoles : List String
  adminRoles : List String
deriving DecidableEq

def dashboardPatch (body : SaveBody) : DashPatch :=
  ⟨cleanId body.supportCategoryId, cleanId body.mmCategoryId, cleanId body.logChannelId,
    cleanId body.transcriptChannelId, parseIdList body.supportRoles,
    parseIdList body.mmRoles, parseIdList body.adminRoles⟩

/-- `POST /server/:guildId/save`.  Inside the `try` block the handler builds
the patch and then calls `patchGuildConfig(guildId, patch)` — but no function
of that name is defined anywhere in the repository (the configuration writer
that exists is `saveGuildConfig`).  Evaluating the call therefore raises a
`ReferenceError` before any store mutation; the surrounding `catch` logs it
and sets the flash message `Save failed.`.  The route consequently never
changes the guild-config store. -/
def dashboardSaveRoute (store : Store ConfigRecord) (guildId : String)
    (body : SaveBody) : Store ConfigRecord × String :=
  let _patch := dashboardPatch body
  (store, "Save failed.")

/-- C7 evaluation: every dashboard save request ends in the `Save failed.`
flash and is invisible to any subsequent `getGuildConfig`, because the route
calls the undefined `patchGuildConfig` instead of `saveGuildConfig`. -/
theorem dashboard_save_no_effect :
    ∀ (store : Store ConfigRecord) (g : String) (body : SaveBody) (g2 : String),
      (dashboardSaveRoute store g body).2 = "Save failed."
      ∧ getGuildConfig (dashboardSaveRoute store g body).1 g2 = getGuildConfig store g2 :=
  fun _ _ _ _ => ⟨rfl, rfl⟩

/-! ## Rating ledger and dedup -/

/-- One `REVIEWS.trade[staffId]` / `REVIEWS.service.global` bucket. -/
structure ReviewEntry where
  reviews : List Int
  avg : ℚ
  count : ℕ
deriving DecidableEq

def emptyReviewEntry : ReviewEntry := ⟨[], 0, 0⟩

/-- `(+x.toFixed(2))` on an exact rational: round to the nearest hundredth,
ties towards `+∞` (the ECMAScript `toFixed` tie rule, "pick the larger n").
The source computes the mean in binary floating point; the model uses exact
rationals. -/
def roundTo2 (q : ℚ) : ℚ := (⌊q * 100 + 1 / 2⌋ : ℚ) / 100

/-- `addReviewForStaff(staffId, score)`: append, recompute `count` as the list
length and `avg` as the rounded mean, store back. -/
def addReviewForStaff (reviews : Store ReviewEntry) (staffId : String)
    (score : Int) : Store ReviewEntry :=
  let cur := (reviews staffId).getD emptyReviewEntry
  let newList := cur.reviews ++ [score]
  let cnt := newList.length
  reviews.update staffId ⟨newList, roundTo2 ((newList.sum : ℚ) / (cnt : ℚ)), cnt⟩

/-- `addReviewForService(score)`: the same against the single `global`
bucket. -/
def addReviewForService (reviews : Store ReviewEntry) (score : Int) :
    Store ReviewEntry :=
  let cur := (reviews "global").getD emptyReviewEntry
  let newList := cur.reviews ++ [score]
  let cnt := newList.length
  reviews.update "global" ⟨newList, roundTo2 ((newList.sum : ℚ) / (cnt : ℚ)), cnt⟩

/-- The three persisted documents the rating buttons touch
(`REVIEWS.trade`, `REVIEWS.service`, `RATED`). -/
structure RatingsState where
  trade : Store ReviewEntry
  service : Store ReviewEntry
  rated : Store Bool

inductive RateOutcome where
  | invalidData
  | alreadyRated
  | recorded
deriving DecidableEq

/-- The `rate:trade` (`rate:mm`) button handler after decoding the custom id:
reject falsy fields, reject a rater who already rated this ticket for this
kind, otherwise append to the staff bucket and mark the dedup key
`${ticketName}_${raterId}_mm`. -/
def rateTradeButton (st : RatingsState) (ticketName staffId raterId : String)
    (score : Int) : RateOutcome × RatingsState :=
  if ticketName = "" ∨ staffId = "" ∨ score = 0 then (.invalidData, st)
  else
    let key := ticketName ++ "_" ++ raterId ++ "_mm"
    if (st.rated key).getD false then (.alreadyRated, st)
    else
      (.recorded,
        { st with
          trade := addReviewForStaff st.trade staffId score
          rated := st.rated.update key true })

/-- The `rate:service` button handler: as above against the global service
bucket with dedup key `${ticketName}_${raterId}_service`. -/
def rateServiceButton (st : RatingsState) (ticketName raterId : String)
    (score : Int) : RateOutcome × RatingsState :=
  if ticketName = "" ∨ score = 0 then (.invalidData, st)
  else
    let key := ticketName ++ "_" ++ raterId ++ "_service"
    if (st.rated key).getD false then (.alreadyRated, st)
    else
      (.recorded,
        { st with
          service := addReviewForService st.service score
          rated := st.rated.update key true })

/-- C9: rating deduplication holds per (ticket, rater, kind), for both the
trade-helper and the service kind.  A first rating call with a fresh dedup key
is recorded: the score is appended, the stored `count` is the list length, the
stored `avg` is the mean rounded to two decimals, and the dedup key is marked.
An identical second call is rejected and returns the ledger state exactly as
it was after the first call. -/
theorem rating_dedup :
    (∀ (st : RatingsState) (t staffId rater : String) (score : Int),
      t ≠ "" → staffId ≠ "" → score ≠ 0 →
      (st.rated (t ++ "_" ++ rater ++ "_mm")).getD false = false →
      (rateTradeButton st t staffId rater score).1 = .recorded
      ∧ (∃ e, ((rateTradeButton st t staffId rater score).2).trade staffId = some e
          ∧ e.reviews = ((st.trade staffId).getD emptyReviewEntry).reviews ++ [score]
          ∧ e.count = e.reviews.length
          ∧ e.avg = roundTo2 ((e.reviews.sum : ℚ) / (e.reviews.length : ℚ)))
      ∧ ((rateTradeButton st t staffId rater score).2).rated
          (t ++ "_" ++ rater ++ "_mm") = some true
      ∧ rateTradeButton ((rateTradeButton st t staffId rater score).2) t staffId rater score =
          (.alreadyRated, (rateTradeButton st t staffId rater score).2))
    ∧ (∀ (st : RatingsState) (t rater : String) (score : Int),
      t ≠ "" → score ≠ 0 →
      (st.rated (t ++ "_" ++ rater ++ "_service")).getD false = false →
      (rateServiceButton st t rater score).1 = .recorded
      ∧ (∃ e, ((rateServiceButton st t rater score).2).service "global" = some e
          ∧ e.reviews = ((st.service "global").getD emptyReviewEntry).reviews ++ [score]
          ∧ e.count = e.reviews.length
          ∧ e.avg = roundTo2 ((e.reviews.sum : ℚ) / (e.reviews.length : ℚ)))
      ∧ ((rateServiceButton st t rater score).2).rated
          (t ++ "_" ++ rater ++ "_service") = some true
      ∧ rateServiceButton ((rateServiceButton st t rater score).2) t rater score =
          (.alreadyRated, (rateServiceButton st t rater score).2)) := by
  constructor
  · intro st t staffId rater score ht hs hsc hfresh
    refine ⟨?_, ⟨⟨((st.trade staffId).getD emptyReviewEntry).reviews ++ [score],
        roundTo2 (((((st.trade staffId).getD emptyReviewEntry).reviews ++ [score]).sum : ℚ) /
          ((((st.trade staffId).getD emptyReviewEntry).reviews ++ [score]).length : ℚ)),
        (((st.trade staffId).getD emptyReviewEntry).reviews ++ [score]).length⟩,
      ?_, rfl, rfl, rfl⟩, ?_, ?_⟩
    · simp [rateTradeButton, ht, hs, hsc, hfresh]
    · simp [rateTradeButton, ht, hs, hsc, hfresh, addReviewForStaff, Store.update]
    · simp [rateTradeButton, ht, hs, hsc, hfresh, Store.update]
    · simp [rateTradeButton, ht, hs, hsc, hfresh, Store.update]
  · intro st t rater score ht hsc hfresh
    refine ⟨?_, ⟨⟨((st.service "global").getD emptyReviewEntry).reviews ++ [score],
        roundTo2 (((((st.service "global").getD emptyReviewEntry).reviews ++ [score]).sum : ℚ) /
          ((((st.service "global").getD emptyReviewEntry).reviews ++ [score]).length : ℚ)),
        (((st.service "global").getD emptyReviewEntry).reviews ++ [score]).length⟩,
      ?_, rfl, rfl, rfl⟩, ?_, ?_⟩
    · simp [rateServiceButton, ht, hsc, hfresh]
    · simp [rateServiceButton, ht, hsc, hfresh, addReviewForService, Store.update]
    · simp [rateServiceButton, ht, hsc, hfresh, Store.update]
    · simp [rateServiceButton, ht, hsc, hfresh, Store.update]

/-- Concrete ratings state used by the dedup witness: staff `42` already has
one score of 5, nothing rated yet. -/
def wRatingsSt : RatingsState :=
  ⟨fun q => if q = "42" then some ⟨[5], 5, 1⟩ else none, fun _ => none, fun _ => none⟩

theorem rating_dedup_witness :
    ("ticket-abc" : String) ≠ "" ∧ ("42" : String) ≠ "" ∧ (4 : Int) ≠ 0
    ∧ (wRatingsSt.rated ("ticket-abc" ++ "_" ++ "99" ++ "_mm")).getD false = false
    ∧ ((rateTradeButton wRatingsSt "ticket-abc" "42" "99" 4).1 = .recorded
      ∧ (∃ e, ((rateTradeButton wRatingsSt "ticket-abc" "42" "99" 4).2).trade "42" = some e
          ∧ e.reviews = ((wRatingsSt.trade "42").getD emptyReviewEntry).reviews ++ [4]
          ∧ e.count = e.reviews.length
          ∧ e.avg = roundTo2 ((e.reviews.sum : ℚ) / (e.reviews.length : ℚ)))
      ∧ ((rateTradeButton wRatingsSt "ticket-abc" "42" "99" 4).2).rated
          ("ticket-abc" ++ "_" ++ "99" ++ "_mm") = some true
      ∧ rateTradeButton ((rateTradeButton wRatingsSt "ticket-abc" "42" "99" 4).2)
          "ticket-abc" "42" "99" 4 =
        (.alreadyRated, (rateTradeButton wRatingsSt "ticket-abc" "42" "99" 4).2)) :=
  ⟨by decide, by decide, by decide, rfl,
    rating_dedup.1 wRatingsSt "ticket-abc" "42" "99" 4 (by decide) (by decide) (by decide) rfl⟩

/-! ## Duration parsing (`planToDays` / `parseDurationToMs`) -/

/-- Numeric value of a run of decimal digits. -/
def digitsToNat (l : List Char) : ℕ :=
  l.foldl (fun a c => a * 10 + (c.toNat - '0'.toNat)) 0

/-- Lower-casing a character list (`String.prototype.toLowerCase` on the
relevant ASCII inputs). -/
def charsToLower (l : Str) : Str := l.map Char.toLower

/-- `String.prototype.trim` on the character list (ASCII whitespace; real JS
also strips Unicode spaces, which these inputs do not contain). -/
def jsTrimChars (l : Str) : Str :=
  ((l.dropWhile Char.isWhitespace).reverse.dropWhile Char.isWhitespace).reverse

/-- Model of the JavaScript `Number(p)` conversion restricted to the plain
decimal literals `digits` and `digits.digits`, returned as an exact
numerator/denominator pair (the denominator a power of ten); every other
string maps to `none` (as `NaN` effectively does here).  Unmodelled JS
numeric forms (signs, exponents, hex, a leading or trailing dot) could only
reach the `custom` branch of `planToDays`, which guards the value with
`0 < n ≤ 3650` anyway, so the theorems below do not depend on them. -/
def jsNumberDec (cs : Str) : Option (ℕ × ℕ) :=
  let intPart := cs.takeWhile Char.isDigit
  let rest := cs.dropWhile Char.isDigit
  if intPart = [] then none
  else
    match rest with
    | [] => some (digitsToNat intPart, 1)
    | '.' :: frac =>
      if frac ≠ [] ∧ frac.all Char.isDigit then
        some (digitsToNat intPart * 10 ^ frac.length + digitsToNat frac, 10 ^ frac.length)
      else none
    | _ => none

structure PlanInfo where
  plan : String
  days : ℕ
deriving DecidableEq

/-- `planToDays(plan)` from the source: the legacy bucket words, or a bare
number of days `n` with `0 < n ≤ 3650`, floored (`num / den` is exactly
`Math.floor` of the non-negative value `num/den`). -/
def planToDays (plan : Str) : Option PlanInfo :=
  let p := charsToLower plan
  if p = "15d".toList ∨ p = "15days".toList ∨ p = "15".toList then some ⟨"15d", 15⟩
  else if p = "1m".toList ∨ p = "1month".toList ∨ p = "30d".toList ∨ p = "30".toList then
    some ⟨"1m", 30⟩
  else if p = "3m".toList ∨ p = "3month".toList ∨ p = "90d".toList ∨ p = "90".toList then
    some ⟨"3m", 90⟩
  else
    match jsNumberDec p with
    | some (num, den) =>
      if 0 < num ∧ num ≤ 3650 * den then some ⟨"custom", num / den⟩ else none
    | none => none

/-- A JavaScript word character (`\w` = `[A-Za-z0-9_]`), as used by `\b`. -/
def isWordChar (c : Char) : Bool := c.isAlphanum || c = '_'

/-- The `\b` test at the end of the unit pattern: end of input or a non-word
character next. -/
def boundaryOk : List Char → Bool
  | [] => true
  | c :: _ => !isWordChar c

/-- The single-letter units of `([0-9]+)\s*(mo|y|w|d|h|m|s)\b`, already
lower-cased (the regex carries the `i` flag). -/
def unitName (c : Char) : Option String :=
  let lc := c.toLower
  if lc = 'y' then some "y"
  else if lc = 'w' then some "w"
  else if lc = 'd' then some "d"
  else if lc = 'h' then some "h"
  else if lc = 'm' then some "m"
  else if lc = 's' then some "s"
  else none

/-- Matching `(mo|y|w|d|h|m|s)\b` at the head of `l`.  `mo` is tried first;
when it matches but the boundary fails, the `m` alternative necessarily fails
its boundary too (the next character is the word character `o`), so the whole
attempt fails — this is the backtracking-faithful reading of the
alternation.  For a single-letter unit the boundary is checked against the
following character. -/
def matchUnit (l : List Char) : Option (String × List Char) :=
  match l with
  | c1 :: c2 :: rest =>
    if c1.toLower = 'm' ∧ c2.toLower = 'o' then
      if boundaryOk rest then some ("mo", rest) else none
    else
      match unitName c1 with
      | some u => if isWordChar c2 then none else some (u, c2 :: rest)
      | none => none
  | [c1] =>
    match unitName c1 with
    | some u => some (u, [])
    | none => none
  | [] => none

/-- True JavaScript `\s` also contains Unicode space separators; the ASCII
subset suffices for these inputs. -/
def jsSpace (c : Char) : Bool :=
  c == ' ' || c == '\t' || c == '\n' || c == '\r' || c.toNat == 11 || c.toNat == 12

/-- One attempt of `re.exec` at the current position: a non-empty maximal
digit run, then `\s*`, then a unit with its boundary; returns the numeral, the
unit and the rest of the input after the match. -/
def matchTokenAt (l : List Char) : Option (ℕ × String × List Char) :=
  let digits := l.takeWhile Char.isDigit
  let rest1 := l.dropWhile Char.isDigit
  if digits = [] then none
  else
    let rest2 := rest1.dropWhile jsSpace
    match matchUnit rest2 with
    | some (u, rest3) => some (digitsToNat digits, u, rest3)
    | none => none

/-- The `while ((match = re.exec(raw)))` loop: search left to right, restart
after each match at its end (`lastIndex`), advance one character after a
failed position.  `fuel` bounds the iterations; the input length always
suffices because every step consumes at least one character. -/
def scanTokens : ℕ → List Char → List (ℕ × String)
  | 0, _ => []
  | _ + 1, [] => []
  | fuel + 1, l =>
    match matchTokenAt l with
    | some (n, u, rest3) => (n, u) :: scanTokens fuel rest3
    | none => scanTokens fuel (l.drop 1)

/-- Milliseconds per unit from the handler's `switch` (the `default: break`
arm contributes nothing). -/
def unitMs : String → ℕ
  | "s" => 1000
  | "m" => 60000
  | "h" => 3600000
  | "d" => 86400000
  | "w" => 604800000
  | "mo" => 2592000000
  | "y" => 31536000000
  | _ => 0

/-- Decimal digit characters of a natural number (kernel-computable
`toString`). -/
def natToChars (n : ℕ) : Str :=
  natToCharsAux (n + 1) n
where
  natToCharsAux : ℕ → ℕ → Str
    | 0, _ => []
    | fuel + 1, n =>
      if n < 10 then [Char.ofNat ('0'.toNat + n)]
      else natToCharsAux fuel (n / 10) ++ [Char.ofNat ('0'.toNat + n % 10)]

/-- The record `parseDurationToMs` returns (`label` kept as characters). -/
structure DurationInfo where
  ms : Int
  label : Str
  plan : String
  days : Int
deriving DecidableEq

/-- `10 * 365 * 24 * 60 * 60 * 1000`. -/
def maxDurationMs : ℕ := 315360000000

/-- `parseDurationToMs(input)` from the source: empty (trimmed) input fails; a
legacy plan gives `days * 86400000` with label `${days}d`; otherwise the regex
scan sums the unit contributions (a numeral of `0` contributes nothing but
still counts as a match), fails when nothing matched or the total is zero,
caps at ten years, and derives `days = max(1, ceil(ms / 86400000))`. -/
def parseDurationToMs (input : String) : Option DurationInfo :=
  let raw := jsTrimChars input.toList
  if raw = [] then none
  else
    match planToDays raw with
    | some pinfo =>
      some ⟨(pinfo.days * 86400000 : ℕ), natToChars pinfo.days ++ "d".toList,
        pinfo.plan, (pinfo.days : Int)⟩
    | none =>
      let toks := scanTokens raw.length raw
      if toks = [] then none
      else
        let total : ℕ := (toks.map (fun tk => tk.1 * unitMs tk.2)).sum
        if total = 0 then none
        else
          let tms := min total maxDurationMs
          some ⟨(tms : Int), charsToLower raw, "custom",
            ((max 1 ((tms + 86400000 - 1) / 86400000) : ℕ) : Int)⟩

lemma jsNumberDec_den_pos (cs : Str) (num den : ℕ)
    (h : jsNumberDec cs = some (num, den)) : 0 < den := by
  simp only [jsNumberDec] at h
  split at h
  · exact absurd h (by simp)
  · split at h
    · injection h with h'
      injection h' with h1 h2
      omega
    · split at h
      · injection h with h'
        injection h' with h1 h2
        subst h2
        positivity
      · exact absurd h (by simp)
    · exact absurd h (by simp)

lemma planToDays_days_le (p : Str) (pinfo : PlanInfo) (h : planToDays p = some pinfo) :
    pinfo.days ≤ 3650 := by
  simp only [planToDays] at h
  split at h
  · injection h with h'
    subst h'
    norm_num
  · split at h
    · injection h with h'
      subst h'
      norm_num
    · split at h
      · injection h with h'
        subst h'
        norm_num
      · split at h
        case _ num den heq =>
          have hden : 0 < den := jsNumberDec_den_pos _ _ _ heq
          split at h
          case isTrue hn =>
            injection h with h'
            subst h'
            calc num / den ≤ 3650 * den / den := Nat.div_le_div_right hn.2
              _ = 3650 := Nat.mul_div_cancel _ hden
          case isFalse => exact absurd h (by simp)
        case _ => exact absurd h (by simp)

/-- C6 counterexample: the claim as stated is false on this code.
`parseDurationToMs("2d12h")` yields `43200000` ms (12 hours), not the claimed
`129600000`: the `\b` in `([0-9]+)\s*(mo|y|w|d|h|m|s)\b` rejects a unit letter
followed directly by a digit, so in `2d12h` the `2d` component fails to match
and only the trailing `12h` is counted.  Moreover a successful parse can yield
a non-positive value: `parseDurationToMs("0.5")` takes the legacy bare-number
branch (`Number("0.5") = 0.5`, `0 < 0.5 ≤ 3650`), floors to `0` days, and
returns `0` ms. -/
theorem parseDuration_cex :
    parseDurationToMs "2d12h" = some ⟨43200000, "2d12h".toList, "custom", 1⟩
    ∧ (43200000 : Int) ≠ 129600000
    ∧ parseDurationToMs "0.5" = some ⟨0, "0d".toList, "custom", 0⟩ :=
  ⟨by decide, by decide, by decide⟩

/-- C6 (amended): `parseDurationToMs("2d12h")` yields `43200000` ms (only the
trailing `12h` matches, because the regex boundary `\b` rejects a unit letter
followed directly by a digit); `parseDurationToMs("15d")` yields `1296000000`
ms (legacy bucket equivalence); `parseDurationToMs("")` fails; and every
successful parse yields a non-negative millisecond value capped at 10 years
(`315360000000` ms) — zero is possible, for bare fractional day counts below
one. -/
theorem parseDuration_amended :
    parseDurationToMs "2d12h" = some ⟨43200000, "2d12h".toList, "custom", 1⟩
    ∧ parseDurationToMs "15d" = some ⟨1296000000, "15d".toList, "15d", 15⟩
    ∧ parseDurationToMs "" = none
    ∧ ∀ (s : String) (d : DurationInfo),
        parseDurationToMs s = some d → 0 ≤ d.ms ∧ d.ms ≤ 315360000000 := by
  refine ⟨by decide, by decide, by decide, ?_⟩
  intro s d h
  simp only [parseDurationToMs] at h
  split at h
  · exact absurd h (by simp)
  · split at h
    case _ pinfo hpi =>
      have hdays : pinfo.days ≤ 3650 := planToDays_days_le _ _ hpi
      injection h with h'
      subst h'
      refine ⟨by positivity, ?_⟩
      have : (pinfo.days * 86400000 : ℕ) ≤ 315360000000 := by
        calc pinfo.days * 86400000 ≤ 3650 * 86400000 := Nat.mul_le_mul_right _ hdays
          _ = 315360000000 := by norm_num
      exact Nat.cast_le.mpr this
    case _ =>
      split at h
      · exact absurd h (by simp)
      · split at h
        · exact absurd h (by simp)
        · injection h with h'
          subst h'
          refine ⟨by positivity, ?_⟩
          have : (min ((List.map (fun tk => tk.1 * unitMs tk.2)
              (scanTokens (jsTrimChars s.toList).length (jsTrimChars s.toList))).sum)
              maxDurationMs : ℕ) ≤ 315360000000 := by
            exact le_trans (Nat.min_le_right _ _) (by norm_num [maxDurationMs])
          exact Nat.cast_le.mpr this

theorem parseDuration_amended_witness :
    parseDurationToMs "1h" = some ⟨3600000, "1h".toList, "custom", 1⟩
    ∧ 0 ≤ (⟨3600000, "1h".toList, "custom", 1⟩ : DurationInfo).ms
    ∧ (⟨3600000, "1h".toList, "custom", 1⟩ : DurationInfo).ms ≤ 315360000000 :=
  ⟨by decide,
    (parseDuration_amended.2.2.2 "1h" ⟨3600000, "1h".toList, "custom", 1⟩ (by decide)).1,
    (parseDuration_amended.2.2.2 "1h" ⟨3600000, "1h".toList, "custom", 1⟩ (by decide)).2⟩

end Nozzari
